import Mathlib

/-
Shallow embedding of the pepaslabs/zero-to-fib S-expression language:
the recursive-descent backtracking parser (src/bin/parser.py) and the
most feature-complete evaluator stage (src/4-lambda/solutions/python3/evaluator.py).

Modelling conventions:
  - Python integers are Int; Python floats are modelled as exact rationals
    (IEEE rounding is not modelled; no claim depends on it).
  - Python dicts (environment frames) are association lists where insertion
    prepends, so the first matching key is the most recent binding, which
    matches dict overwrite semantics observationally.
  - A frame entry is either a runtime value or a reference (address) to a
    parent frame: in the Python code the special key __parent_env__ normally
    maps to the parent dict, but a lambda parameter of that name can rebind
    it to an ordinary value, so both shapes must be representable.
  - Frames live in a store (list of frames addressed by position); applying
    a closure allocates a new frame at the end of the store.  This makes the
    read-only character of pre-existing frames a provable statement instead
    of a baked-in assumption.
  - Python exceptions become an error type.  Distinct raise sites (and the
    distinct TypeErrors Python itself raises for calling a non-callable,
    using `in` on a non-container, arithmetic on non-numbers, and unhashable
    dict keys) get distinct constructors.
  - General recursion (the evaluator can diverge) is made total with a fuel
    parameter; running out of fuel is the artificial error outOfFuel.
-/

/-- A Python number: an int or a float (modelled as an exact rational). -/
inductive PyNum where
  | i (n : Int)
  | f (q : ℚ)
deriving DecidableEq, Repr

/-- The rational magnitude of a Python number. -/
def pyNumToQ : PyNum → ℚ
  | .i n => (n : ℚ)
  | .f q => q

/-- Python addition: int + int is an int, anything involving a float is a float. -/
def pyAddN : PyNum → PyNum → PyNum
  | .i a, .i b => .i (a + b)
  | a, b => .f (pyNumToQ a + pyNumToQ b)

/-- Python subtraction, with the same int/float promotion as pyAddN. -/
def pySubN : PyNum → PyNum → PyNum
  | .i a, .i b => .i (a - b)
  | a, b => .f (pyNumToQ a - pyNumToQ b)

/-- AST node, as produced by src/bin/parser.py: number, symbol, or list. -/
inductive Ast where
  | number (v : PyNum)
  | symbol (s : String)
  | list (items : List Ast)

/-- The three primitives seeded into the global environment. -/
inductive Prim where
  | plus
  | minus
  | lessthan
deriving DecidableEq, Repr

/-- Runtime value: number, boolean, closure (class LispLambda: parameter list
and body statements only, no captured environment), primitive, or Python None
(the result of running an empty statement sequence). -/
inductive Value where
  | num (n : PyNum)
  | boolean (b : Bool)
  | closure (params : List Ast) (body : List Ast)
  | prim (p : Prim)
  | pyNone

/-- Address of a frame in the store. -/
abbrev Addr := Nat

/-- A dict key: the Python code uses string keys ("__parent_env__" and symbol
names), but binding a number-node parameter uses its numeric value as key. -/
inductive Key where
  | str (s : String)
  | num (n : PyNum)

/-- A dict entry: a runtime value, or a reference to a (parent) frame. -/
inductive Entry where
  | val (v : Value)
  | env (a : Addr)

/-- An environment frame: a Python dict from keys to entries. -/
abbrev Frame := List (Key × Entry)

/-- The store of all allocated frames; address 0 is the global frame. -/
abbrev Store := List Frame

/-- Error kinds: each corresponds to a raise site in the Python code or to a
TypeError Python itself raises.  outOfFuel and badAddr are model artifacts. -/
inductive Err where
  | outOfFuel
  | badAddr
  | symbolNotFound (s : String)
  | emptyList
  | missingPredicate
  | missingConsequent
  | missingAlternative
  | missingParameterList
  | invalidParameterList
  | emptyLambdaBody
  | insufficientArguments
  | notApplicable
  | typeErrorNotIterable
  | typeErrorUnsupportedOperand
  | typeErrorUnhashable
deriving DecidableEq, Repr

/-- First entry of the frame under a given string key.  Number keys never
equal a Python string, so they are skipped. -/
def frame_get : Frame → String → Option Entry
  | [], _ => none
  | (Key.str s, e) :: f, symbol => if s = symbol then some e else frame_get f symbol
  | (Key.num _, _) :: f, symbol => frame_get f symbol

/-- Models lookup(symbol, env) of evaluator.py: if the symbol is a key of the
frame return its entry, else recurse into the entry under "__parent_env__";
recursing into a non-dict value is the Python TypeError raised by
membership tests on non-containers.  Fueled because the parent chain is a
store reference, not a structural subterm. -/
def lookup : Nat → String → Entry → Store → Except Err Entry
  | 0, _, _, _ => .error .outOfFuel
  | fuel+1, symbol, e, st =>
    match e with
    | .val _ => .error .typeErrorNotIterable
    | .env a =>
      match st.get? a with
      | none => .error .badAddr
      | some frame =>
        match frame_get frame symbol with
        | some ent => .ok ent
        | none =>
          match frame_get frame "__parent_env__" with
          | some p => lookup fuel symbol p st
          | none => .error (.symbolNotFound symbol)

/-- Models is_truthy: everything is truthy except the boolean False. -/
def is_truthy : Entry → Bool
  | .val (.boolean b) => b
  | _ => true

/-- Models `ast0["value"] == name` for a string name: only a symbol node can
compare equal to a string (a number or a Python list never equals a string). -/
def ast_value_is : Ast → String → Bool
  | .symbol s, t => s == t
  | _, _ => false

/-- The dict key for binding one parameter: the "value" field of the node.
A symbol gives a string key, a number gives a numeric key, and a list node
is an unhashable dict key (Python TypeError). -/
def param_key : Ast → Except Err Key
  | .symbol s => .ok (.str s)
  | .number n => .ok (.num n)
  | .list _ => .error .typeErrorUnhashable

/-- Models the parameter-binding loop of lisp_apply: at each index, if the
operands are exhausted raise InsufficientArguments, otherwise bind the
parameter key to the operand (prepending = dict overwrite).  Surplus operands
are never visited. -/
def bind_params : List Ast → List Entry → Frame → Except Err Frame
  | [], _, f => .ok f
  | _ :: _, [], _ => .error .insufficientArguments
  | p :: ps, o :: os, f =>
    match param_key p with
    | .error e => .error e
    | .ok k => bind_params ps os ((k, o) :: f)

/-- Numeric view of an operand for the primitives: Python booleans coerce to
the ints 0 and 1 in arithmetic and comparisons; everything else is a type
error for those operators. -/
def entry_num? : Entry → Option PyNum
  | .val (.num n) => some n
  | .val (.boolean b) => some (.i (if b then 1 else 0))
  | _ => none

/-- Accumulator loop of lisp_plus. -/
def lisp_plus_go : PyNum → List Entry → Except Err PyNum
  | accum, [] => .ok accum
  | accum, a :: as =>
    match entry_num? a with
    | none => .error .typeErrorUnsupportedOperand
    | some n => lisp_plus_go (pyAddN accum n) as

/-- Models lisp_plus: sum of the operands starting from the int 0. -/
def lisp_plus (args : List Entry) : Except Err Entry :=
  match lisp_plus_go (.i 0) args with
  | .error e => .error e
  | .ok n => .ok (.val (.num n))

/-- Accumulator loop of lisp_minus (the accumulator starts as the raw first
operand, so with a single operand it is returned unchanged whatever it is). -/
def lisp_minus_go : Entry → List Entry → Except Err Entry
  | accum, [] => .ok accum
  | accum, a :: as =>
    match entry_num? accum, entry_num? a with
    | some x, some y => lisp_minus_go (.val (.num (pySubN x y))) as
    | _, _ => .error .typeErrorUnsupportedOperand

/-- Models lisp_minus: 0 on no operands, the first operand unchanged on one
operand, otherwise left-to-right subtraction of the rest from the first. -/
def lisp_minus : List Entry → Except Err Entry
  | [] => .ok (.val (.num (.i 0)))
  | a :: as => lisp_minus_go a as

/-- One Python `<` comparison between operands. -/
def pyLt? : Entry → Entry → Except Err Bool := fun a b =>
  match entry_num? a, entry_num? b with
  | some x, some y => .ok (decide (pyNumToQ x < pyNumToQ y))
  | _, _ => .error .typeErrorUnsupportedOperand

/-- Pairwise loop of lisp_lessthan. -/
def lisp_lessthan_go : Entry → List Entry → Except Err Entry
  | _, [] => .ok (.val (.boolean true))
  | prev, a :: as =>
    match pyLt? prev a with
    | .error e => .error e
    | .ok false => .ok (.val (.boolean false))
    | .ok true => lisp_lessthan_go a as

/-- Models lisp_lessthan: strict monotone increase across the operands,
vacuously true for zero or one operand. -/
def lisp_lessthan : List Entry → Except Err Entry
  | [] => .ok (.val (.boolean true))
  | a :: as => lisp_lessthan_go a as

/-- Dispatch of a primitive to its implementation. -/
def apply_prim : Prim → List Entry → Except Err Entry
  | .plus, args => lisp_plus args
  | .minus, args => lisp_minus args
  | .lessthan, args => lisp_lessthan args

/-- The global frame g_env of evaluator.py, in its insertion order.  The
float 3.14159 is modelled as the exact rational of the source text. -/
def g_env : Frame :=
  [(.str "#t", .val (.boolean true)),
   (.str "#f", .val (.boolean false)),
   (.str "pi", .val (.num (.f ((314159 : ℚ) / 100000)))),
   (.str "+", .val (.prim .plus)),
   (.str "-", .val (.prim .minus)),
   (.str "<", .val (.prim .lessthan))]

/-- Result of an evaluator step: an entry or an error, together with the
store (kept also on error, so statements about failing runs are possible). -/
abbrev Res := Except Err Entry × Store

mutual

/-- Models lisp_eval(ast, env).  Dispatch on the node kind; for a list,
dispatch on the head: the special forms if and lambda, else application
(operator first, then operands left to right). -/
def lisp_eval : Nat → Ast → Addr → Store → Res
  | 0, _, _, st => (.error .outOfFuel, st)
  | _+1, .number v, _, st => (.ok (.val (.num v)), st)
  | _+1, .symbol s, env, st => (lookup (st.length + 1) s (.env env) st, st)
  | _+1, .list [], _, st => (.error .emptyList, st)
  | fuel+1, .list (ast0 :: rest), env, st =>
    if ast_value_is ast0 "if" then
      match rest with
      | [] => (.error .missingPredicate, st)
      | pred :: rest2 =>
        match lisp_eval fuel pred env st with
        | (.error e, st1) => (.error e, st1)
        | (.ok p, st1) =>
          if is_truthy p then
            match rest2 with
            | [] => (.error .missingConsequent, st1)
            | c :: _ => lisp_eval fuel c env st1
          else
            match rest2 with
            | [] => (.error .missingAlternative, st1)
            | [_] => (.error .missingAlternative, st1)
            | _ :: a :: _ => lisp_eval fuel a env st1
    else if ast_value_is ast0 "lambda" then
      match rest with
      | [] => (.error .missingParameterList, st)
      | params_ast :: body =>
        match params_ast with
        | .list ps =>
          match body with
          | [] => (.error .emptyLambdaBody, st)
          | b :: bs => (.ok (.val (.closure ps (b :: bs))), st)
        | _ => (.error .invalidParameterList, st)
    else
      match lisp_eval fuel ast0 env st with
      | (.error e, st1) => (.error e, st1)
      | (.ok op, st1) =>
        match eval_operands fuel rest env st1 with
        | (.error e, st2) => (.error e, st2)
        | (.ok ops, st2) => lisp_apply fuel op ops env st2
termination_by structural fuel => fuel

/-- Left-to-right evaluation of the operand nodes. -/
def eval_operands : Nat → List Ast → Addr → Store → Except Err (List Entry) × Store
  | 0, _, _, st => (.error .outOfFuel, st)
  | _+1, [], _, st => (.ok [], st)
  | fuel+1, a :: as, env, st =>
    match lisp_eval fuel a env st with
    | (.error e, st1) => (.error e, st1)
    | (.ok v, st1) =>
      match eval_operands fuel as env st1 with
      | (.error e, st2) => (.error e, st2)
      | (.ok vs, st2) => (.ok (v :: vs), st2)
termination_by structural fuel => fuel

/-- Models lisp_apply(operator, operands, env): a closure allocates a new
frame whose parent entry is the calling environment, binds the parameters,
and runs the body in the new frame; a primitive is invoked directly; any
other operator is the Python TypeError for calling a non-callable. -/
def lisp_apply : Nat → Entry → List Entry → Addr → Store → Res
  | 0, _, _, _, st => (.error .outOfFuel, st)
  | fuel+1, .val (.closure ps body), operands, env, st =>
    match bind_params ps operands [(Key.str "__parent_env__", .env env)] with
    | .error e => (.error e, st)
    | .ok frame => eval_body fuel body st.length (st ++ [frame])
  | _+1, .val (.prim p), operands, _, st => (apply_prim p operands, st)
  | _+1, .val (.num _), _, _, st => (.error .notApplicable, st)
  | _+1, .val (.boolean _), _, _, st => (.error .notApplicable, st)
  | _+1, .val .pyNone, _, _, st => (.error .notApplicable, st)
  | _+1, .env _, _, _, st => (.error .notApplicable, st)
termination_by structural fuel => fuel

/-- Statement loop of lisp_apply: value starts as Python None and each
statement replaces it; the last value is returned. -/
def eval_body : Nat → List Ast → Addr → Store → Res
  | 0, _, _, st => (.error .outOfFuel, st)
  | _+1, [], _, st => (.ok (.val .pyNone), st)
  | fuel+1, [stmt], env, st => lisp_eval fuel stmt env st
  | fuel+1, stmt :: rest, env, st =>
    match lisp_eval fuel stmt env st with
    | (.error e, st1) => (.error e, st1)
    | (.ok _, st1) => eval_body fuel rest env st1
termination_by structural fuel => fuel

end

/-
Parser (src/bin/parser.py).  Every parse function takes the remaining token
sequence and returns either a parsed node plus the unconsumed tokens, or a
no-match result; truly fatal conditions (unterminated list, unparseable
token at top level) are errors.  The mutual recursion of parse_list and
parse_atom_or_list is made total with fuel.
-/

/-- Parser error kinds (outOfFuel is a model artifact). -/
inductive PErr where
  | outOfFuel
  | unterminatedList (toks : List String)
  | unparseableToken (toks : List String)
  | leftoverTokens (toks : List String)
deriving DecidableEq, Repr

/-- Models behead(list): first token (if any) and the remaining tokens. -/
def behead : List String → Option String × List String
  | [] => (none, [])
  | t :: ts => (some t, ts)

/-- Digits of a token, as a natural number, if the token is one or more
ASCII digits.  Used to model the Python int() and float() builtins. -/
def py_digits? (cs : List Char) : Option Nat :=
  if cs.isEmpty then none
  else if cs.all Char.isDigit then some (cs.foldl (fun n c => n * 10 + (c.toNat - 48)) 0)
  else none

/-- Models int(token): an optional sign followed by one or more digits.
(Underscore separators and surrounding whitespace, which Python also
accepts, do not occur in tokens and are not modelled.) -/
def py_int? (s : String) : Option Int :=
  match s.toList with
  | '-' :: cs => (py_digits? cs).map (fun n => -(n : Int))
  | '+' :: cs => (py_digits? cs).map (fun n => (n : Int))
  | cs => (py_digits? cs).map (fun n => (n : Int))

/-- Longest digit run at the front of a character list, and the rest. -/
def span_digits (cs : List Char) : List Char × List Char :=
  (cs.takeWhile Char.isDigit, cs.dropWhile Char.isDigit)

/-- Mantissa of a float literal: digits, optionally followed by a dot and
further digits, with at least one digit overall. -/
def parse_mantissa (cs : List Char) : Option ℚ :=
  let (ip, rest) := span_digits cs
  match rest with
  | [] => if ip.isEmpty then none else some ((py_digits? ip).getD 0 : ℚ)
  | '.' :: rest2 =>
    let (fp, rest3) := span_digits rest2
    if ¬ rest3.isEmpty then none
    else if ip.isEmpty ∧ fp.isEmpty then none
    else some (((ip.foldl (fun n c => n * 10 + (c.toNat - 48)) 0 : Nat) : ℚ)
      + ((fp.foldl (fun n c => n * 10 + (c.toNat - 48)) 0 : Nat) : ℚ) / (10 : ℚ) ^ fp.length)
  | _ => none

/-- Signed digit run for a float exponent. -/
def parse_signed_digits (cs : List Char) : Option Int :=
  match cs with
  | '-' :: cs2 => (py_digits? cs2).map (fun n => -(n : Int))
  | '+' :: cs2 => (py_digits? cs2).map (fun n => (n : Int))
  | cs2 => (py_digits? cs2).map (fun n => (n : Int))

/-- Unsigned float literal: mantissa with an optional e/E exponent. -/
def py_float_core (cs : List Char) : Option ℚ :=
  let mant := cs.takeWhile (fun c => c ≠ 'e' ∧ c ≠ 'E')
  let rest := cs.dropWhile (fun c => c ≠ 'e' ∧ c ≠ 'E')
  match parse_mantissa mant, rest with
  | none, _ => none
  | some q, [] => some q
  | some q, _ :: expPart =>
    match parse_signed_digits expPart with
    | none => none
    | some e => some (q * (10 : ℚ) ^ e)

/-- Models float(token) for ordinary decimal literals.  (The special tokens
inf and nan, which Python float() also accepts, are not modelled; they do
not occur in any input considered here.) -/
def py_float? (s : String) : Option ℚ :=
  match s.toList with
  | '-' :: cs => (py_float_core cs).map (fun q => -q)
  | '+' :: cs => py_float_core cs
  | cs => py_float_core cs

/-- Models is_number(token): int(token) or float(token) succeeds. -/
def is_number (token : String) : Bool :=
  (py_int? token).isSome || (py_float? token).isSome

/-- Models is_oparen. -/
def is_oparen (token : String) : Bool := token == "("

/-- Models is_cparen. -/
def is_cparen (token : String) : Bool := token == ")"

/-- Models parse_number: succeeds if the next token parses as an int, else
as a float; on no match the original token sequence is returned. -/
def parse_number (tokens : List String) : Option Ast × List String :=
  let failure := (none, tokens)
  match behead tokens with
  | (none, _) => failure
  | (some token, rest) =>
    match py_int? token with
    | some n => (some (.number (.i n)), rest)
    | none =>
      match py_float? token with
      | some q => (some (.number (.f q)), rest)
      | none => failure

/-- Models parse_symbol: succeeds on any next token that is not a number and
not a parenthesis. -/
def parse_symbol (tokens : List String) : Option Ast × List String :=
  let failure := (none, tokens)
  match behead tokens with
  | (none, _) => failure
  | (some token, rest) =>
    if is_number token || is_oparen token || is_cparen token then failure
    else (some (.symbol token), rest)

mutual

/-- Models parse_list: requires an opening parenthesis, then parses items
until the closing parenthesis; running out of tokens is the fatal
UnterminatedList error carrying the original token sequence. -/
def parse_list : Nat → List String → Except PErr (Option Ast × List String)
  | 0, _ => .error .outOfFuel
  | fuel+1, tokens =>
    let failure := (none, tokens)
    match behead tokens with
    | (none, _) => .ok failure
    | (some token, rest) =>
      if ¬ is_oparen token then .ok failure
      else parse_list_items fuel tokens rest []
termination_by structural fuel => fuel

/-- The while loop of parse_list: orig is the token sequence at entry to
parse_list (used in the UnterminatedList message and as the no-match
result). -/
def parse_list_items : Nat → List String → List String → List Ast →
    Except PErr (Option Ast × List String)
  | 0, _, _, _ => .error .outOfFuel
  | fuel+1, orig, tokens, items =>
    match tokens with
    | [] => .error (.unterminatedList orig)
    | t :: ts =>
      if is_cparen t then .ok (some (.list items), ts)
      else
        match parse_atom_or_list fuel tokens with
        | .error e => .error e
        | .ok (some ast, rest) => parse_list_items fuel orig rest (items ++ [ast])
        | .ok (none, _) => .ok (none, orig)
termination_by structural fuel => fuel

/-- Models parse_atom_or_list: try list, then number, then symbol; the final
no-match result carries the token sequence captured at entry (the failure
value bound before any sub-parse). -/
def parse_atom_or_list : Nat → List String → Except PErr (Option Ast × List String)
  | 0, _ => .error .outOfFuel
  | fuel+1, tokens =>
    match parse_list fuel tokens with
    | .error e => .error e
    | .ok (some ast, rest) => .ok (some ast, rest)
    | .ok (none, tokens1) =>
      match parse_number tokens1 with
      | (some ast, rest) => .ok (some ast, rest)
      | (none, tokens2) =>
        match parse_symbol tokens2 with
        | (some ast, rest) => .ok (some ast, rest)
        | (none, _) => .ok (none, tokens)
termination_by structural fuel => fuel

end

/-- The top-level while loop of the parser main program: parse nodes while
tokens remain; a non-empty stream on which parse_atom_or_list does not match
raises the unparseable-token error carrying the tokens variable as
reassigned by the failed call. -/
def parse_toplevel_loop : Nat → List String → List Ast →
    Except PErr (List Ast × List String)
  | 0, _, _ => .error .outOfFuel
  | fuel+1, tokens, asts =>
    match tokens with
    | [] => .ok (asts, tokens)
    | _ :: _ =>
      match parse_atom_or_list fuel tokens with
      | .error e => .error e
      | .ok (none, rest) => .error (.unparseableToken rest)
      | .ok (some ast, rest) => parse_toplevel_loop fuel rest (asts ++ [ast])

/-- The parser main program after tokenization: the loop, followed by the
leftover-tokens check performed after the loop exits. -/
def parse_main (fuel : Nat) (tokens : List String) : Except PErr (List Ast) :=
  match parse_toplevel_loop fuel tokens [] with
  | .error e => .error e
  | .ok (asts, rest) => if rest.length ≠ 0 then .error (.leftoverTokens rest) else .ok asts

/-- Pads parentheses with spaces: models the two str.replace calls of
tokenize. -/
def pad_parens : List Char → List Char
  | [] => []
  | c :: cs =>
    if c = '(' ∨ c = ')' then ' ' :: c :: ' ' :: pad_parens cs
    else c :: pad_parens cs

/-- Splitting on whitespace runs with no empty tokens: models str.split()
with no arguments. -/
def split_ws_go : List Char → List Char → List String
  | acc, [] => if acc.isEmpty then [] else [String.mk acc.reverse]
  | acc, c :: cs =>
    if c.isWhitespace then
      if acc.isEmpty then split_ws_go [] cs
      else String.mk acc.reverse :: split_ws_go [] cs
    else split_ws_go (c :: acc) cs

/-- Models tokenize(input): pad parentheses, split on whitespace. -/
def tokenize (input : List Char) : List String :=
  split_ws_go [] (pad_parens input)

/-- The Python sum of a list of numbers, starting from the int 0 as
lisp_plus does. -/
def list_sum_py (l : List PyNum) : PyNum := l.foldl pyAddN (.i 0)

/-- The dynamic-scoping witness program
((lambda (y) ((lambda (g) ((lambda (y) (g)) 2)) (lambda () y))) 1):
the closure (lambda () y) is built in a scope where y is 1 and invoked from
a scope where y is 2. -/
def dyn_scope_prog : Ast :=
  .list [.list [.symbol "lambda", .list [.symbol "y"],
    .list [.list [.symbol "lambda", .list [.symbol "g"],
      .list [.list [.symbol "lambda", .list [.symbol "y"], .list [.symbol "g"]],
        .number (.i 2)]],
      .list [.symbol "lambda", .list [], .symbol "y"]]],
    .number (.i 1)]

/-- The program ((lambda (__parent_env__) pi) 5): the parameter named
__parent_env__ overwrites the parent link of the new frame. -/
def c1_cex_prog : Ast :=
  .list [.list [.symbol "lambda", .list [.symbol "__parent_env__"], .symbol "pi"],
    .number (.i 5)]

/-- The program ((lambda (__parent_env__) +) 5). -/
def c10_cex_prog : Ast :=
  .list [.list [.symbol "lambda", .list [.symbol "__parent_env__"], .symbol "+"],
    .number (.i 5)]

/-- The program ((lambda (__parent_env__) <) 5). -/
def c10_thm_prog : Ast :=
  .list [.list [.symbol "lambda", .list [.symbol "__parent_env__"], .symbol "<"],
    .number (.i 5)]

/-- The program ((lambda ((q) r) q) 5): its closure has a list-shaped
parameter, and fewer operands than parameters are supplied. -/
def c6_cex_prog : Ast :=
  .list [.list [.symbol "lambda", .list [.list [.symbol "q"], .symbol "r"], .symbol "q"],
    .number (.i 5)]

/-
Theorems.
-/

theorem is_truthy_of_ne {e : Entry} (h : e ≠ .val (.boolean false)) : is_truthy e = true := by
  cases e with
  | val v =>
    cases v with
    | boolean b =>
      cases b with
      | false => exact absurd rfl h
      | true => rfl
    | num n => rfl
    | closure p b => rfl
    | prim p => rfl
    | pyNone => rfl
  | env a => rfl

/-- Claim C5: for an if form with predicate, consequent and alternative all
present, a predicate value other than the boolean false (numeric zero
included) selects the consequent, and the alternative is never evaluated
(the result is the evaluation of the consequent, independent of the
alternative); the boolean false selects the alternative, and the consequent
is never evaluated. -/
theorem c5_if_short_circuit (fuel : Nat) (p c a : Ast) (env : Addr) (st st1 : Store) (e : Entry) :
    (lisp_eval fuel p env st = (.ok e, st1) → e ≠ .val (.boolean false) →
      lisp_eval (fuel+1) (.list [.symbol "if", p, c, a]) env st = lisp_eval fuel c env st1) ∧
    (lisp_eval fuel p env st = (.ok (.val (.boolean false)), st1) →
      lisp_eval (fuel+1) (.list [.symbol "if", p, c, a]) env st = lisp_eval fuel a env st1) := by
  constructor
  · intro hp he
    simp [lisp_eval, ast_value_is, hp, is_truthy_of_ne he]
  · intro hp
    simp [lisp_eval, ast_value_is, hp, is_truthy]

theorem c5_witness :
    lisp_eval 1 (.number (.i 0)) 0 [g_env] = (.ok (.val (.num (.i 0))), [g_env]) ∧
    (Entry.val (Value.num (.i 0)) ≠ .val (.boolean false)) ∧
    lisp_eval 2 (.list [.symbol "if", .number (.i 0), .number (.i 7), .number (.i 9)]) 0 [g_env]
      = lisp_eval 1 (.number (.i 7)) 0 [g_env] :=
  ⟨rfl, by intro h; injection h with h2; exact Value.noConfusion h2,
   (c5_if_short_circuit 1 (.number (.i 0)) (.number (.i 7)) (.number (.i 9)) 0 [g_env] [g_env]
     (.val (.num (.i 0)))).1 rfl
     (by intro h; injection h with h2; exact Value.noConfusion h2)⟩

/-- Claim C3: applying an operator value that is neither a closure nor a
primitive (a number, a boolean, Python None, or an environment dict) fails
with the not-applicable error (the TypeError Python raises for calling a
non-callable), leaving the store unchanged; concretely, (1 2) fails so. -/
theorem c3_not_applicable (fuel : Nat) (ops : List Entry) (env : Addr) (st : Store) :
    (∀ n, lisp_apply (fuel+1) (.val (.num n)) ops env st = (.error .notApplicable, st)) ∧
    (∀ b, lisp_apply (fuel+1) (.val (.boolean b)) ops env st = (.error .notApplicable, st)) ∧
    lisp_apply (fuel+1) (.val .pyNone) ops env st = (.error .notApplicable, st) ∧
    (∀ a, lisp_apply (fuel+1) (.env a) ops env st = (.error .notApplicable, st)) ∧
    (lisp_eval 5 (.list [.number (.i 1), .number (.i 2)]) 0 [g_env]).1 = .error .notApplicable :=
  ⟨fun _ => rfl, fun _ => rfl, rfl, fun _ => rfl, rfl⟩

/-- Counterexample to claim C4: (lambda (1) 2) has a parameter list whose
item is a number, not a symbol, yet evaluation succeeds with a closure
instead of failing with InvalidParameterList. -/
theorem c4_cex :
    lisp_eval 5 (.list [.symbol "lambda", .list [.number (.i 1)], .number (.i 2)]) 0 [g_env]
      = (.ok (.val (.closure [.number (.i 1)] [.number (.i 2)])), [g_env]) ∧
    (lisp_eval 5 (.list [.symbol "lambda", .list [.number (.i 1)], .number (.i 2)]) 0 [g_env]).1
      ≠ .error .invalidParameterList :=
  ⟨rfl, fun h => nomatch h⟩

/-- Claim C4 as amended: a lambda form fails with InvalidParameterList
exactly when item 1 is present and is not a list node (a number or a symbol
node there); the items of a list-node parameter list are not examined, and
with at least one body statement the result is a closure holding the
parameter list and the body. -/
theorem c4_amended (fuel : Nat) (env : Addr) (st : Store) :
    (∀ n rest, lisp_eval (fuel+1) (.list (.symbol "lambda" :: .number n :: rest)) env st
        = (.error .invalidParameterList, st)) ∧
    (∀ s rest, lisp_eval (fuel+1) (.list (.symbol "lambda" :: .symbol s :: rest)) env st
        = (.error .invalidParameterList, st)) ∧
    (∀ ps b bs, lisp_eval (fuel+1) (.list (.symbol "lambda" :: .list ps :: b :: bs)) env st
        = (.ok (.val (.closure ps (b :: bs))), st)) :=
  ⟨fun _ _ => rfl, fun _ _ => rfl, fun _ _ _ => rfl⟩

theorem pyAddN_zero_left (a : PyNum) : pyAddN (.i 0) a = a := by
  cases a <;> simp [pyAddN, pyNumToQ]

theorem pyAddN_zero_right (a : PyNum) : pyAddN a (.i 0) = a := by
  cases a <;> simp [pyAddN, pyNumToQ]

theorem pyAddN_assoc (a b c : PyNum) : pyAddN (pyAddN a b) c = pyAddN a (pyAddN b c) := by
  cases a <;> cases b <;> cases c <;> simp [pyAddN, pyNumToQ] <;> ring

theorem pySubN_pyAddN (x y z : PyNum) : pySubN (pySubN x y) z = pySubN x (pyAddN y z) := by
  cases x <;> cases y <;> cases z <;> simp [pySubN, pyAddN, pyNumToQ] <;> ring

theorem pySubN_zero_right (x : PyNum) : pySubN x (.i 0) = x := by
  cases x <;> simp [pySubN, pyNumToQ]

theorem foldl_pyAddN_shift (a b : PyNum) (l : List PyNum) :
    l.foldl pyAddN (pyAddN a b) = pyAddN a (l.foldl pyAddN b) := by
  induction l generalizing b with
  | nil => rfl
  | cons y ys ih => simp only [List.foldl_cons, pyAddN_assoc, ih]

theorem foldl_pySubN_sum (x : PyNum) (l : List PyNum) :
    l.foldl pySubN x = pySubN x (list_sum_py l) := by
  induction l generalizing x with
  | nil => simp [list_sum_py, List.foldl_nil, pySubN_zero_right]
  | cons y ys ih =>
    have h1 : list_sum_py (y :: ys) = pyAddN y (list_sum_py ys) := by
      simp only [list_sum_py, List.foldl_cons, pyAddN_zero_left]
      rw [← foldl_pyAddN_shift y (.i 0) ys, pyAddN_zero_right]
    rw [List.foldl_cons, ih, pySubN_pyAddN, h1]

theorem lisp_minus_go_nums (x : PyNum) (l : List PyNum) :
    lisp_minus_go (.val (.num x)) (l.map (fun n => Entry.val (.num n)))
      = .ok (.val (.num (l.foldl pySubN x))) := by
  induction l generalizing x with
  | nil => rfl
  | cons y ys ih => simp only [List.map_cons, lisp_minus_go, entry_num?, List.foldl_cons, ih]

/-- Claim C7: the primitive minus yields the int 0 on no operands, the first
operand unchanged on exactly one operand, and on two or more numeric
operands the first operand minus the sum of the rest (the left-to-right
accumulation equals subtracting the sum); concretely (- 10 3 2) yields 5. -/
theorem c7_minus (x y : PyNum) (l : List PyNum) (e : Entry) :
    lisp_minus [] = .ok (.val (.num (.i 0))) ∧
    lisp_minus [e] = .ok e ∧
    lisp_minus ((x :: y :: l).map (fun n => Entry.val (.num n)))
      = .ok (.val (.num (pySubN x (list_sum_py (y :: l))))) ∧
    lisp_eval 10 (.list [.symbol "-", .number (.i 10), .number (.i 3), .number (.i 2)]) 0 [g_env]
      = (.ok (.val (.num (.i 5))), [g_env]) := by
  refine ⟨rfl, rfl, ?_, rfl⟩
  show lisp_minus_go (.val (.num x)) ((y :: l).map (fun n => Entry.val (.num n))) = _
  rw [lisp_minus_go_nums, foldl_pySubN_sum]

theorem parse_number_cases (toks : List String) :
    (∃ a r, parse_number toks = (some a, r)) ∨ parse_number toks = (none, toks) := by
  cases toks with
  | nil => exact Or.inr rfl
  | cons t ts =>
    cases h1 : py_int? t with
    | some n => exact Or.inl ⟨.number (.i n), ts, by simp [parse_number, behead, h1]⟩
    | none =>
      cases h2 : py_float? t with
      | some q => exact Or.inl ⟨.number (.f q), ts, by simp [parse_number, behead, h1, h2]⟩
      | none => exact Or.inr (by simp [parse_number, behead, h1, h2])

theorem parse_symbol_cases (toks : List String) :
    (∃ a r, parse_symbol toks = (some a, r)) ∨ parse_symbol toks = (none, toks) := by
  cases toks with
  | nil => exact Or.inr rfl
  | cons t ts =>
    by_cases h : (is_number t || is_oparen t || is_cparen t) = true
    · exact Or.inr (by simp [parse_symbol, behead, h])
    · exact Or.inl ⟨.symbol t, ts, by simp [parse_symbol, behead, h]⟩

theorem parse_list_items_none : ∀ fuel orig toks items r,
    parse_list_items fuel orig toks items = .ok (none, r) → r = orig := by
  intro fuel
  induction fuel with
  | zero => intro orig toks items r h; simp [parse_list_items] at h
  | succ fuel ih =>
    intro orig toks items r h
    simp only [parse_list_items] at h
    split at h
    · simp at h
    · rename_i t ts
      split at h
      · simp at h
      · split at h
        · simp at h
        · exact ih _ _ _ _ h
        · simp at h; exact h.symm

theorem parse_list_cases (fuel : Nat) (toks : List String) :
    (∃ e, parse_list fuel toks = .error e) ∨
      (∃ a r, parse_list fuel toks = .ok (some a, r)) ∨
      parse_list fuel toks = .ok (none, toks) := by
  cases fuel with
  | zero => exact Or.inl ⟨.outOfFuel, rfl⟩
  | succ fuel =>
    cases toks with
    | nil => exact Or.inr (Or.inr rfl)
    | cons t ts =>
      by_cases hop : is_oparen t = true
      · have hgoal : parse_list (fuel+1) (t :: ts) = parse_list_items fuel (t :: ts) ts [] := by
          simp [parse_list, behead, hop]
        rcases h : parse_list_items fuel (t :: ts) ts [] with e | ⟨oa, r⟩
        · exact Or.inl ⟨e, by rw [hgoal, h]⟩
        · cases oa with
          | some a => exact Or.inr (Or.inl ⟨a, r, by rw [hgoal, h]⟩)
          | none =>
            have := parse_list_items_none fuel (t :: ts) ts [] r h
            subst this
            exact Or.inr (Or.inr (by rw [hgoal, h]))
      · exact Or.inr (Or.inr (by simp [parse_list, behead, hop]))

theorem parse_atom_or_list_cases (fuel : Nat) (toks : List String) :
    (∃ e, parse_atom_or_list fuel toks = .error e) ∨
      (∃ a r, parse_atom_or_list fuel toks = .ok (some a, r)) ∨
      parse_atom_or_list fuel toks = .ok (none, toks) := by
  cases fuel with
  | zero => exact Or.inl ⟨.outOfFuel, rfl⟩
  | succ fuel =>
    rcases h : parse_list fuel toks with e | ⟨oa, toks1⟩
    · exact Or.inl ⟨e, by simp [parse_atom_or_list, h]⟩
    · cases oa with
      | some a => exact Or.inr (Or.inl ⟨a, toks1, by simp [parse_atom_or_list, h]⟩)
      | none =>
        rcases h2 : parse_number toks1 with ⟨oa2, toks2⟩
        cases oa2 with
        | some a => exact Or.inr (Or.inl ⟨a, toks2, by simp [parse_atom_or_list, h, h2]⟩)
        | none =>
          rcases h3 : parse_symbol toks2 with ⟨oa3, toks3⟩
          cases oa3 with
          | some a => exact Or.inr (Or.inl ⟨a, toks3, by simp [parse_atom_or_list, h, h2, h3]⟩)
          | none => exact Or.inr (Or.inr (by simp [parse_atom_or_list, h, h2, h3]))

/-- Claim C8: each parse function either returns a constructed node together
with the remaining unconsumed tokens, or (fatal parser errors aside) a
no-match result in which the returned token sequence is the input token
sequence unchanged. -/
theorem c8_no_match_keeps_tokens :
    (∀ toks, (∃ a r, parse_number toks = (some a, r)) ∨ parse_number toks = (none, toks)) ∧
    (∀ toks, (∃ a r, parse_symbol toks = (some a, r)) ∨ parse_symbol toks = (none, toks)) ∧
    (∀ fuel toks, (∃ e, parse_list fuel toks = .error e) ∨
      (∃ a r, parse_list fuel toks = .ok (some a, r)) ∨
      parse_list fuel toks = .ok (none, toks)) ∧
    (∀ fuel toks, (∃ e, parse_atom_or_list fuel toks = .error e) ∨
      (∃ a r, parse_atom_or_list fuel toks = .ok (some a, r)) ∨
      parse_atom_or_list fuel toks = .ok (none, toks)) :=
  ⟨parse_number_cases, parse_symbol_cases, parse_list_cases, parse_atom_or_list_cases⟩

theorem parse_no_leftover : ∀ fuel,
    (∀ toks ts, parse_list fuel toks ≠ .error (.leftoverTokens ts)) ∧
    (∀ orig toks items ts, parse_list_items fuel orig toks items ≠ .error (.leftoverTokens ts)) ∧
    (∀ toks ts, parse_atom_or_list fuel toks ≠ .error (.leftoverTokens ts)) := by
  intro fuel
  induction fuel with
  | zero =>
    refine ⟨?_, ?_, ?_⟩ <;> intros <;>
      simp [parse_list, parse_list_items, parse_atom_or_list]
  | succ fuel ih =>
    obtain ⟨ihL, ihI, ihA⟩ := ih
    refine ⟨?_, ?_, ?_⟩
    · intro toks ts h
      simp only [parse_list] at h
      split at h
      · simp at h
      · split at h
        · simp at h
        · exact ihI _ _ _ _ h
    · intro orig toks items ts h
      simp only [parse_list_items] at h
      split at h
      · simp at h
      · split at h
        · simp at h
        · split at h
          · rename_i e heq
            rw [show e = PErr.leftoverTokens ts from by injection h] at heq
            exact ihA _ _ heq
          · exact ihI _ _ _ _ h
          · simp at h
    · intro toks ts h
      simp only [parse_atom_or_list] at h
      split at h
      · rename_i e heq
        rw [show e = PErr.leftoverTokens ts from by injection h] at heq
        exact ihL _ _ heq
      · simp at h
      · split at h
        · simp at h
        · split at h
          · simp at h
          · simp at h

theorem parse_toplevel_loop_no_leftover : ∀ fuel toks acc ts,
    parse_toplevel_loop fuel toks acc ≠ .error (.leftoverTokens ts) := by
  intro fuel
  induction fuel with
  | zero => intro toks acc ts h; simp [parse_toplevel_loop] at h
  | succ fuel ih =>
    intro toks acc ts h
    simp only [parse_toplevel_loop] at h
    split at h
    · simp at h
    · split at h
      · rename_i e heq
        rw [show e = PErr.leftoverTokens ts from by injection h] at heq
        exact (parse_no_leftover fuel).2.2 _ _ heq
      · simp at h
      · exact ih _ _ _ h

theorem parse_toplevel_loop_rest_nil : ∀ fuel toks acc asts rest,
    parse_toplevel_loop fuel toks acc = .ok (asts, rest) → rest = [] := by
  intro fuel
  induction fuel with
  | zero => intro toks acc asts rest h; simp [parse_toplevel_loop] at h
  | succ fuel ih =>
    intro toks acc asts rest h
    simp only [parse_toplevel_loop] at h
    split at h
    · simp at h
      exact h.2
    · split at h
      · simp at h
      · simp at h
      · exact ih _ _ _ _ h

theorem parse_main_no_leftover (fuel : Nat) (toks ts : List String) :
    parse_main fuel toks ≠ .error (.leftoverTokens ts) := by
  intro h
  unfold parse_main at h
  split at h
  · rename_i e heq
    rw [show e = PErr.leftoverTokens ts from by injection h] at heq
    exact parse_toplevel_loop_no_leftover fuel toks [] ts heq
  · rename_i asts rest heq
    rw [parse_toplevel_loop_rest_nil fuel toks [] asts rest heq] at h
    simp at h

/-- Counterexample to claim C2: on the input source text with a leftover
closing parenthesis, the parser fails with the unparseable-token error (the
raise in the top-level loop), not with LeftoverTokens. -/
theorem c2_cex :
    tokenize ("(+ 1 2))".toList) = ["(", "+", "1", "2", ")", ")"] ∧
    parse_main 30 ["(", "+", "1", "2", ")", ")"] = .error (.unparseableToken [")"]) ∧
    parse_main 30 ["(", "+", "1", "2", ")", ")"] ≠ .error (.leftoverTokens [")"]) :=
  ⟨rfl, rfl, fun h => nomatch h⟩

/-- Claim C2 as amended: when the remaining token stream is non-empty and
parse_atom_or_list does not match, the top-level loop fails with the
unparseable-token error; the leftover-tokens check after the loop is
unreachable, so the parser never reports LeftoverTokens. -/
theorem c2_amended :
    (∀ fuel toks acc, toks ≠ [] → parse_atom_or_list fuel toks = .ok (none, toks) →
      parse_toplevel_loop (fuel+1) toks acc = .error (.unparseableToken toks)) ∧
    (∀ fuel toks ts, parse_main fuel toks ≠ .error (.leftoverTokens ts)) := by
  constructor
  · intro fuel toks acc hne h
    cases toks with
    | nil => exact absurd rfl hne
    | cons t moreToks => simp [parse_toplevel_loop, h]
  · exact fun fuel toks ts => parse_main_no_leftover fuel toks ts

theorem c2_witness :
    ([")"] : List String) ≠ [] ∧ parse_atom_or_list 5 [")"] = .ok (none, [")"]) ∧
    parse_toplevel_loop 6 [")"] [] = .error (.unparseableToken [")"]) :=
  ⟨by simp, rfl, c2_amended.1 5 [")"] [] (by simp) rfl⟩

theorem store_mono : ∀ fuel,
    (∀ ast env st, st <+: (lisp_eval fuel ast env st).2) ∧
    (∀ asts env st, st <+: (eval_operands fuel asts env st).2) ∧
    (∀ op ops env st, st <+: (lisp_apply fuel op ops env st).2) ∧
    (∀ body env st, st <+: (eval_body fuel body env st).2) := by
  intro fuel
  induction fuel with
  | zero =>
    exact ⟨fun _ _ _ => List.prefix_rfl, fun _ _ _ => List.prefix_rfl,
           fun _ _ _ _ => List.prefix_rfl, fun _ _ _ => List.prefix_rfl⟩
  | succ fuel ih =>
    obtain ⟨ihE, ihO, ihA, ihB⟩ := ih
    refine ⟨?_, ?_, ?_, ?_⟩
    · intro ast env st
      cases ast with
      | number v => exact List.prefix_rfl
      | symbol s => exact List.prefix_rfl
      | list items =>
        cases items with
        | nil => exact List.prefix_rfl
        | cons ast0 rest =>
          by_cases hif : ast_value_is ast0 "if" = true
          · cases rest with
            | nil => simp [lisp_eval, hif]
            | cons pred rest2 =>
              rcases hp : lisp_eval fuel pred env st with ⟨r, st1⟩
              have h1 : st <+: st1 := by
                have := ihE pred env st; rw [hp] at this; exact this
              cases r with
              | error e => simp [lisp_eval, hif, hp]; exact h1
              | ok p =>
                by_cases ht : is_truthy p = true
                · cases rest2 with
                  | nil => simp [lisp_eval, hif, hp, ht]; exact h1
                  | cons c rest3 =>
                    simp [lisp_eval, hif, hp, ht]
                    exact h1.trans (ihE c env st1)
                · cases rest2 with
                  | nil => simp [lisp_eval, hif, hp, ht]; exact h1
                  | cons c rest3 =>
                    cases rest3 with
                    | nil => simp [lisp_eval, hif, hp, ht]; exact h1
                    | cons a rest4 =>
                      simp [lisp_eval, hif, hp, ht]
                      exact h1.trans (ihE a env st1)
          · by_cases hlam : ast_value_is ast0 "lambda" = true
            · cases rest with
              | nil => simp [lisp_eval, hif, hlam]
              | cons params_ast body =>
                cases params_ast with
                | list ps =>
                  cases body with
                  | nil => simp [lisp_eval, hif, hlam]
                  | cons b bs => simp [lisp_eval, hif, hlam]
                | number n => simp [lisp_eval, hif, hlam]
                | symbol s2 => simp [lisp_eval, hif, hlam]
            · rcases hopr : lisp_eval fuel ast0 env st with ⟨rop, st1⟩
              have h1 : st <+: st1 := by
                have := ihE ast0 env st; rw [hopr] at this; exact this
              cases rop with
              | error e => simp [lisp_eval, hif, hlam, hopr]; exact h1
              | ok op =>
                rcases hops : eval_operands fuel rest env st1 with ⟨rops, st2⟩
                have h2 : st1 <+: st2 := by
                  have := ihO rest env st1; rw [hops] at this; exact this
                cases rops with
                | error e => simp [lisp_eval, hif, hlam, hopr, hops]; exact h1.trans h2
                | ok ops =>
                  simp [lisp_eval, hif, hlam, hopr, hops]
                  exact (h1.trans h2).trans (ihA op ops env st2)
    · intro asts env st
      cases asts with
      | nil => exact List.prefix_rfl
      | cons a as =>
        rcases h1e : lisp_eval fuel a env st with ⟨r, st1⟩
        have h1 : st <+: st1 := by
          have := ihE a env st; rw [h1e] at this; exact this
        cases r with
        | error e => simp [eval_operands, h1e]; exact h1
        | ok v =>
          rcases h2e : eval_operands fuel as env st1 with ⟨r2, st2⟩
          have h2 : st1 <+: st2 := by
            have := ihO as env st1; rw [h2e] at this; exact this
          cases r2 with
          | error e => simp [eval_operands, h1e, h2e]; exact h1.trans h2
          | ok vs => simp [eval_operands, h1e, h2e]; exact h1.trans h2
    · intro op ops env st
      cases op with
      | env a => exact List.prefix_rfl
      | val v =>
        cases v with
        | num n => exact List.prefix_rfl
        | boolean b => exact List.prefix_rfl
        | pyNone => exact List.prefix_rfl
        | prim p => exact List.prefix_rfl
        | closure ps body =>
          rcases hb : bind_params ps ops [(Key.str "__parent_env__", .env env)] with e | frame
          · simp [lisp_apply, hb]
          · simp [lisp_apply, hb]
            exact (List.prefix_append st [frame]).trans (ihB body st.length (st ++ [frame]))
    · intro body env st
      cases body with
      | nil => exact List.prefix_rfl
      | cons stmt rest =>
        cases rest with
        | nil => exact ihE stmt env st
        | cons s2 r2 =>
          rcases h1e : lisp_eval fuel stmt env st with ⟨r, st1⟩
          have h1 : st <+: st1 := by
            have := ihE stmt env st; rw [h1e] at this; exact this
          cases r with
          | error e => simp [eval_body, h1e]; exact h1
          | ok v => simp [eval_body, h1e]; exact h1.trans (ihB (s2 :: r2) env st1)

/-- Claim C9: evaluation never modifies a pre-existing frame: the input
store is always a prefix of the output store (successful or failing run
alike), so after evaluating any node against the global environment the
global frame still holds exactly its six initial bindings (pi, #t, #f, +,
-, <), and re-running the same evaluation against the surviving global
frame is literally the same evaluation, hence yields equal results. -/
theorem c9_global_env_read_only (fuel : Nat) (ast : Ast) (env : Addr) (st : Store) :
    st <+: (lisp_eval fuel ast env st).2 ∧
    ((lisp_eval fuel ast 0 [g_env]).2).get? 0 = some g_env ∧
    lisp_eval fuel ast 0 ((lisp_eval fuel ast 0 [g_env]).2.take 1)
      = lisp_eval fuel ast 0 [g_env] := by
  have hpre : ([g_env] : Store) <+: (lisp_eval fuel ast 0 [g_env]).2 :=
    (store_mono fuel).1 ast 0 [g_env]
  obtain ⟨t, ht⟩ := hpre
  have htake : (lisp_eval fuel ast 0 [g_env]).2.take 1 = [g_env] := by
    rw [← ht]; rfl
  have hget : ((lisp_eval fuel ast 0 [g_env]).2).get? 0 = some g_env := by
    rw [← ht]; rfl
  exact ⟨(store_mono fuel).1 ast env st, hget, by rw [htake]⟩

theorem frame_get_cons_str (s : String) (o : Entry) (f : Frame) (sym : String) (h : ¬ s = sym) :
    frame_get ((Key.str s, o) :: f) sym = frame_get f sym := by
  simp [frame_get, h]

theorem bind_params_keeps_parent : ∀ (ps : List Ast) (ops : List Entry) (f : Frame)
    (envA : Addr), (∀ p ∈ ps, ¬ ast_value_is p "__parent_env__" = true) →
    frame_get f "__parent_env__" = some (.env envA) →
    ∀ fr, bind_params ps ops f = .ok fr → frame_get fr "__parent_env__" = some (.env envA) := by
  intro ps
  induction ps with
  | nil =>
    intro ops f envA hps hf fr h
    injection h with h2
    rw [← h2]
    exact hf
  | cons p ps ih =>
    intro ops f envA hps hf fr h
    cases ops with
    | nil => simp [bind_params] at h
    | cons o os =>
      cases p with
      | list l => simp [bind_params, param_key] at h
      | number n =>
        simp only [bind_params, param_key] at h
        exact ih os ((Key.num n, o) :: f) envA
          (fun q hq => hps q (List.mem_cons_of_mem _ hq)) hf fr h
      | symbol s =>
        have hs : ¬ s = "__parent_env__" := by
          have := hps (.symbol s) (List.mem_cons_self _ _)
          simpa [ast_value_is] using this
        simp only [bind_params, param_key] at h
        refine ih os _ envA (fun q hq => hps q (List.mem_cons_of_mem _ hq)) ?_ fr h
        rw [frame_get_cons_str s o f _ hs]
        exact hf

/-- Counterexample to claim C1: applying the closure of
(lambda (__parent_env__) pi) overwrites the parent link of the new frame,
so the free symbol pi does not resolve to the binding reachable from the
calling environment (where lookup finds it), and the application fails. -/
theorem c1_cex :
    (lisp_eval 10 c1_cex_prog 0 [g_env]).1 = .error .typeErrorNotIterable ∧
    (lisp_eval 10 c1_cex_prog 0 [g_env]).1 ≠ .ok (.val (.num (.f ((314159 : ℚ) / 100000)))) ∧
    lookup 2 "pi" (.env 0) [g_env] = .ok (.val (.num (.f ((314159 : ℚ) / 100000)))) := by
  refine ⟨rfl, ?_, rfl⟩
  have he : (lisp_eval 10 c1_cex_prog 0 [g_env]).1 = Except.error Err.typeErrorNotIterable := rfl
  rw [he]
  simp

/-- Claim C1 as amended: a lambda form evaluates identically in every
environment (the defining environment is not stored) and yields a closure
holding only the parameter list and the body; for every application of a
closure none of whose parameters is itself named __parent_env__, the new
frame keeps the calling environment as its parent entry (shown for the
frame produced by parameter binding, and directly for a parameterless
closure), so a free symbol in the body resolves through the call-site
chain: the dynamic-scoping program yields 2, the call-site binding, not 1,
the definition-site binding. -/
theorem c1_dynamic_scoping :
    (∀ fuel env1 env2 (st : Store) rest,
      lisp_eval (fuel+1) (.list (.symbol "lambda" :: rest)) env1 st
        = lisp_eval (fuel+1) (.list (.symbol "lambda" :: rest)) env2 st) ∧
    (∀ fuel env (st : Store) ps b bs,
      lisp_eval (fuel+1) (.list (.symbol "lambda" :: .list ps :: b :: bs)) env st
        = (.ok (.val (.closure ps (b :: bs))), st)) ∧
    (∀ ps ops (envA : Addr) fr, (∀ p ∈ ps, ¬ ast_value_is p "__parent_env__" = true) →
      bind_params ps ops [(Key.str "__parent_env__", .env envA)] = .ok fr →
      frame_get fr "__parent_env__" = some (.env envA)) ∧
    (∀ fuel body ops (envA : Addr) (st : Store),
      lisp_apply (fuel+1) (.val (.closure [] body)) ops envA st
        = eval_body fuel body st.length (st ++ [[(Key.str "__parent_env__", .env envA)]])) ∧
    (lisp_eval 20 dyn_scope_prog 0 [g_env]).1 = .ok (.val (.num (.i 2))) :=
  ⟨fun _ _ _ _ _ => rfl, fun _ _ _ _ _ _ => rfl,
   fun ps ops envA fr hps h =>
     bind_params_keeps_parent ps ops [(Key.str "__parent_env__", .env envA)] envA hps rfl fr h,
   fun _ _ _ _ _ => rfl, rfl⟩

theorem c1_witness :
    frame_get [(Key.str "x", Entry.val (.num (.i 7))), (Key.str "__parent_env__", Entry.env 0)]
      "__parent_env__" = some (Entry.env 0) :=
  c1_dynamic_scoping.2.2.1 [.symbol "x"] [Entry.val (.num (.i 7))] 0
    [(Key.str "x", Entry.val (.num (.i 7))), (Key.str "__parent_env__", Entry.env 0)]
    (by intro p hp; simp only [List.mem_singleton] at hp; subst hp; simp [ast_value_is])
    rfl

/-- Counterexample to claim C10: in the body of the applied closure of
(lambda (__parent_env__) +), the symbol + is bound only in the calling
chain; lookup fails, but with the TypeError of a membership test on a
non-dict value (the operand 5 standing where the parent dict should be),
not with SymbolNotFound. -/
theorem c10_cex :
    (lisp_eval 10 c10_cex_prog 0 [g_env]).1 = .error .typeErrorNotIterable ∧
    (lisp_eval 10 c10_cex_prog 0 [g_env]).1 ≠ .error (.symbolNotFound "+") := by
  refine ⟨rfl, ?_⟩
  have he : (lisp_eval 10 c10_cex_prog 0 [g_env]).1 = Except.error Err.typeErrorNotIterable := rfl
  rw [he]
  simp

/-- Claim C10 as amended: __parent_env__ is a reserved key of every frame: a
parameter of that name binds its operand over the parent link (dict
overwrite: the bound entry is found first), and during body evaluation a
symbol bound only in the calling chain no longer resolves through the
chain; when the bound operand is not itself a frame the failure is the
TypeError of a membership test on a non-dict value, not SymbolNotFound;
concretely ((lambda (__parent_env__) <) 5) fails so. -/
theorem store_get_append (st : Store) (f : Frame) : (st ++ [f]).get? st.length = some f := by
  induction st with
  | nil => rfl
  | cons a as ih => simp only [List.cons_append, List.length_cons, List.get?]; exact ih

theorem c10_parent_overwrite :
    (∀ (v : Entry) (envA : Addr),
      bind_params [.symbol "__parent_env__"] [v] [(Key.str "__parent_env__", .env envA)]
        = .ok [(Key.str "__parent_env__", v), (Key.str "__parent_env__", .env envA)] ∧
      frame_get [(Key.str "__parent_env__", v), (Key.str "__parent_env__", .env envA)]
        "__parent_env__" = some v) ∧
    (∀ fuel s (w : Value) (st : Store), ¬ s = "__parent_env__" →
      lookup (fuel+2) s (.env st.length) (st ++ [[(Key.str "__parent_env__", Entry.val w)]])
        = .error .typeErrorNotIterable) ∧
    (lisp_eval 12 c10_thm_prog 0 [g_env]).1 = .error .typeErrorNotIterable := by
  refine ⟨fun v envA => ⟨rfl, rfl⟩, ?_, rfl⟩
  intro fuel s w st hs
  have hget : (st ++ [[(Key.str "__parent_env__", Entry.val w)]]).get? st.length
      = some [(Key.str "__parent_env__", Entry.val w)] := store_get_append st _
  have hs2 : ¬ ("__parent_env__" : String) = s := fun h => hs h.symm
  simp [lookup, hget, frame_get, hs2]

theorem c10_witness :
    (¬ ("x" : String) = "__parent_env__") ∧
    lookup 3 "x" (.env 1) ([g_env] ++ [[(Key.str "__parent_env__", Entry.val (.num (.i 5)))]])
      = .error .typeErrorNotIterable :=
  ⟨by simp, c10_parent_overwrite.2.1 1 "x" (.num (.i 5)) [g_env] (by simp)⟩

theorem bind_params_take : ∀ (ps : List Ast) (ops : List Entry) (f : Frame),
    bind_params ps (ops.take ps.length) f = bind_params ps ops f := by
  intro ps
  induction ps with
  | nil => intro ops f; rfl
  | cons p ps ih =>
    intro ops f
    cases ops with
    | nil => rfl
    | cons o os =>
      simp only [List.length_cons, List.take_succ_cons, bind_params]
      cases param_key p with
      | error e => rfl
      | ok k => exact ih os ((k, o) :: f)

theorem bind_params_insufficient_iff : ∀ (ps : List Ast) (ops : List Entry) (f : Frame),
    (∀ p ∈ ps, ∃ k, param_key p = .ok k) →
    (bind_params ps ops f = .error .insufficientArguments ↔ ops.length < ps.length) := by
  intro ps
  induction ps with
  | nil => intro ops f hps; simp [bind_params]
  | cons p ps ih =>
    intro ops f hps
    cases ops with
    | nil => simp [bind_params]
    | cons o os =>
      obtain ⟨k, hk⟩ := hps p (List.mem_cons_self p ps)
      simp only [bind_params, hk, List.length_cons]
      rw [ih os ((k, o) :: f) (fun q hq => hps q (List.mem_cons_of_mem _ hq))]
      omega

theorem bind_params_symbols : ∀ (ns : List String) (ops : List Entry) (f : Frame),
    ns.length ≤ ops.length →
    bind_params (ns.map Ast.symbol) ops f
      = .ok ((((ns.zip ops).map (fun q => (Key.str q.1, q.2))).reverse) ++ f) := by
  intro ns
  induction ns with
  | nil => intro ops f h; simp [bind_params]
  | cons n ns ih =>
    intro ops f h
    cases ops with
    | nil => simp at h
    | cons o os =>
      simp only [List.map_cons, bind_params, param_key, List.zip_cons_cons,
        List.reverse_cons]
      rw [ih os ((Key.str n, o) :: f) (by simpa using h)]
      simp [List.append_assoc]

/-- Counterexample to claim C6: the closure of (lambda ((q) r) q) has two
parameters and is applied to one operand — fewer operands than parameters —
yet the application fails with the unhashable-key TypeError raised while
binding the list-shaped first parameter, not with InsufficientArguments. -/
theorem c6_cex :
    (lisp_eval 10 c6_cex_prog 0 [g_env]).1 = .error .typeErrorUnhashable ∧
    (lisp_eval 10 c6_cex_prog 0 [g_env]).1 ≠ .error .insufficientArguments := by
  refine ⟨rfl, ?_⟩
  have he : (lisp_eval 10 c6_cex_prog 0 [g_env]).1 = Except.error Err.typeErrorUnhashable := rfl
  rw [he]
  simp

/-- Claim C6 as amended: for a closure whose parameters all bind to a
hashable key (symbol or number nodes), the binding phase raises
InsufficientArguments exactly when fewer operands than parameters are
supplied (a list-shaped parameter instead raises the unhashable-key
TypeError when bound); surplus operands are ignored: applying a closure to
an operand list equals applying it to the first parameter-count operands;
and with enough operands every symbol parameter is bound positionally to
its operand in the new frame. -/
theorem c6_insufficient_args :
    (∀ (ps : List Ast) (ops : List Entry) (f : Frame), (∀ p ∈ ps, ∃ k, param_key p = .ok k) →
      (bind_params ps ops f = .error .insufficientArguments ↔ ops.length < ps.length)) ∧
    (∀ fuel ps body ops (envA : Addr) (st : Store),
      lisp_apply fuel (.val (.closure ps body)) ops envA st
        = lisp_apply fuel (.val (.closure ps body)) (ops.take ps.length) envA st) ∧
    (∀ (ns : List String) (ops : List Entry) (f : Frame), ns.length ≤ ops.length →
      bind_params (ns.map Ast.symbol) ops f
        = .ok ((((ns.zip ops).map (fun q => (Key.str q.1, q.2))).reverse) ++ f)) := by
  refine ⟨bind_params_insufficient_iff, ?_, bind_params_symbols⟩
  intro fuel ps body ops envA st
  cases fuel with
  | zero => rfl
  | succ fuel => simp [lisp_apply, bind_params_take]

theorem c6_witness :
    (∀ p ∈ [Ast.symbol "a", Ast.symbol "b"], ∃ k, param_key p = .ok k) ∧
    (bind_params [Ast.symbol "a", Ast.symbol "b"] [Entry.val (.num (.i 1))] []
      = .error .insufficientArguments ↔
      ([Entry.val (.num (.i 1))] : List Entry).length < ([Ast.symbol "a", Ast.symbol "b"] : List Ast).length) := by
  have hps : ∀ p ∈ [Ast.symbol "a", Ast.symbol "b"], ∃ k, param_key p = .ok k := by
    intro p hp
    simp only [List.mem_cons, List.not_mem_nil, or_false] at hp
    rcases hp with rfl | rfl
    · exact ⟨.str "a", rfl⟩
    · exact ⟨.str "b", rfl⟩
  exact ⟨hps, c6_insufficient_args.1 [Ast.symbol "a", Ast.symbol "b"]
    [Entry.val (.num (.i 1))] [] hps⟩
